import Mathlib

/-!
Verification of the ghia rule-matching and assignment-reconciliation engine
(`ghia/github.py`), shallowly embedded in Lean.

Modelling conventions:
* Python `set` values (issue assignees) are modelled as `List String` without
  duplicates; insertion order of the model list is irrelevant to every
  property proved here (all statements are about membership, counts and
  sorting).
* Compiled regular expressions (built by `validate_rules` with
  `re.IGNORECASE` and matched with `.search`) are modelled as literal string
  patterns; `regex.search(field)` becomes a case-insensitive
  substring-anywhere test (`search`).
* A JSON `null` body is modelled as `none : Option String`; applying
  `.search` to `None` raises `TypeError` in Python, which the model renders
  as the `none` outcome of `match_rule` (crash propagation), while a present
  body yields `some` of the boolean result.
* `click.style`d terminal messages are modelled by the `Echo` inductive: one
  constructor per f-string shape produced by the code.
-/

namespace Ghia

/-- Python's `str.casefold` applied to a string, as a character list:
character-wise lowercasing. -/
def casefold (s : String) : List Char := s.toList.map Char.toLower

/-- Case-insensitive comparison order used by
`sorted(all_assignees, key=lambda s: s.casefold())`: casefolded keys are
compared lexicographically. -/
def cfle (a b : String) : Prop := casefold a ≤ casefold b

instance : DecidableRel cfle := fun a b =>
  inferInstanceAs (Decidable (casefold a ≤ casefold b))

instance : IsTotal String cfle := ⟨fun a b => le_total (casefold a) (casefold b)⟩

instance : IsTrans String cfle := ⟨fun _ _ _ h1 h2 => le_trans h1 h2⟩

/-- Model of `regex.search(text)` for a pattern compiled with `re.IGNORECASE`:
a case-insensitive substring search anywhere in `text` (patterns are modelled
as literal strings). -/
def search (pattern text : String) : Bool :=
  decide (casefold pattern <:+: casefold text)

/-- One assignment rule: the four independent pattern lists keyed by match
scope, as produced by `validate_rules` (`ghia/validators.py`). -/
structure Rule where
  title : List String
  text : List String
  label : List String
  any : List String
deriving DecidableEq

/-- The parsed rules dictionary. In Python this is one dict mapping each
login to a rule dict and the reserved key `"fallback"` to the fallback label
string; the model separates the two: `patterns` is the association list of
(login, rule) pairs in dict (insertion) order, and `fallback` is the value of
the reserved key when present. The `login != "fallback"` filter in
`process_issue` corresponds to iterating `patterns`. -/
structure RuleSet where
  patterns : List (String × Rule)
  fallback : Option String

/-- State of `Issue.__init__` (`ghia/github.py`). `assignees` is a Python set,
modelled as a duplicate-free list; `update_labels` / `update_assignees` are
the mutable change flags, `False` at construction. `body` is `none` when the
GitHub payload carried `null`. -/
structure Issue where
  number : Nat
  url : String
  html_url : String
  title : String
  body : Option String
  labels : List String
  assignees : List String
  update_labels : Bool
  update_assignees : Bool
deriving DecidableEq

/-- Model of `Issue.add_assignees`: `for a in assignees: self.assignees.add(a)`.
Adding to a Python set is modelled by appending when absent. Also used to
model set construction `set(users)` (as `add_assignees [] users`) and
`old.union(new)` (as `add_assignees old new`). -/
def add_assignees (assignees : List String) (users : List String) : List String :=
  match users with
  | [] => assignees
  | u :: rest =>
    add_assignees (if u ∈ assignees then assignees else assignees ++ [u]) rest

/-- The serialized issue payload built by `Issue.serialize`: each field is
present in the output dict iff the corresponding flag is set. -/
structure Patch where
  labels : Option (List String)
  assignees : Option (List String)
deriving DecidableEq

/-- Model of `Issue.serialize`. -/
def serialize (issue : Issue) : Patch :=
  { labels := if issue.update_labels then some issue.labels else none
    assignees := if issue.update_assignees then some issue.assignees else none }

/-- Model of `update_github`: sends a PATCH with `issue.serialize()` iff at least one
change flag is set; `none` models "no update request performed". -/
def update_github (issue : Issue) : Option Patch :=
  if issue.update_labels || issue.update_assignees then some (serialize issue)
  else none

/-- One terminal message produced by `apply_strategy` / `process_issue`:
`assignee sym login` is the `f"   {symbol} {user}"` line with styled symbol
`'+'`, `'-'` or `'='`; the two fallback constructors are the
`"already has label"` and `"added label"` messages. -/
inductive Echo where
  | assignee (symbol : Char) (login : String)
  | fallback_has (label : String)
  | fallback_added (label : String)
deriving DecidableEq

/-- The `for regex in rule["any"]` loop of `match_rule`: each pattern is
tried against the title, then the body, then every label. Searching a `none`
body (Python `None`) is the `TypeError` crash, modelled as `none`; the title
test short-circuits before the body is touched. -/
def any_loop (title : String) (body : Option String) (labels : List String) :
    List String → Option Bool
  | [] => some false
  | p :: rest =>
    if search p title then some true
    else
      match body with
      | none => none
      | some b =>
        if search p b then some true
        else if labels.any (fun l => search p l) then some true
        else any_loop title body labels rest

/-- Model of `match_rule` (`ghia/github.py`): the four scope loops in source order —
title patterns against the title, text patterns against the body, label
patterns against each label, any patterns against title/body/labels. `none`
models the `TypeError` raised by `regex.search(None)` when the body is
absent and a body search is reached. -/
def match_rule (issue : Issue) (rule : Rule) : Option Bool :=
  if rule.title.any (fun p => search p issue.title) then some true
  else
    let text_step : Option Bool :=
      match rule.text, issue.body with
      | [], _ => some false
      | _ :: _, none => none
      | ps, some b => some (ps.any (fun p => search p b))
    match text_step with
    | none => none
    | some true => some true
    | some false =>
      if rule.label.any (fun p => issue.labels.any (fun l => search p l)) then
        some true
      else any_loop issue.title issue.body issue.labels rule.any

/-- The message loop of `apply_strategy`: iterates the (already sorted) list
of all assignees, emits one symbol per login and sets `update_assignees`
whenever the symbol is `'+'` or `'-'`. -/
def echo_loop (old_assignees new_assignees : List String) (issue : Issue) :
    List String → Issue × List Echo
  | [] => (issue, [])
  | user :: rest =>
    if user ∈ new_assignees then
      if user ∈ old_assignees then
        let r := echo_loop old_assignees new_assignees issue rest
        (r.1, Echo.assignee '=' user :: r.2)
      else
        let r := echo_loop old_assignees new_assignees
          { issue with update_assignees := true } rest
        (r.1, Echo.assignee '+' user :: r.2)
    else
      let r := echo_loop old_assignees new_assignees
        { issue with update_assignees := true } rest
      (r.1, Echo.assignee '-' user :: r.2)

/-- Model of `apply_strategy` (`ghia/github.py`): the three-way strategy branch (any
strategy other than `"append"` and `"set"` takes the full-replace `else`
branch), followed by the sorted message loop. Returns the mutated issue and
the list of messages. -/
def apply_strategy (strategy : String) (issue : Issue) (users : List String) :
    Issue × List Echo :=
  let old_assignees := issue.assignees
  let issue1 :=
    if strategy = "append" then
      { issue with assignees := add_assignees issue.assignees users }
    else if strategy = "set" then
      if issue.assignees.length = 0 then
        { issue with assignees := add_assignees issue.assignees users }
      else issue
    else
      { issue with update_assignees := true, assignees := add_assignees [] users }
  let new_assignees := issue1.assignees
  let all_assignees := add_assignees old_assignees new_assignees
  echo_loop old_assignees new_assignees issue1 (List.insertionSort cfle all_assignees)

/-- The GitHub JSON payload fields read by `create_issue`: `labels` is the
list of extracted `x["name"]` values and `assignees` the list of extracted
`x["login"]` values; `body` is `none` when the JSON value is `null`. -/
structure IssuePayload where
  number : Nat
  url : String
  html_url : String
  title : String
  body : Option String
  labels : List String
  assignees : List String

/-- Model of `create_issue`: builds the `Issue` object from the payload; the
constructor turns the assignee list into a set and clears both flags. The
body is passed through unchanged (a `null` body stays `none`). -/
def create_issue (payload : IssuePayload) : Issue :=
  { number := payload.number
    url := payload.url
    html_url := payload.html_url
    title := payload.title
    body := payload.body
    labels := payload.labels
    assignees := add_assignees [] payload.assignees
    update_labels := false
    update_assignees := false }

/-- The matching loop of `process_issue`: collects, in rule order, every
login whose rule matches the issue; propagates a `match_rule` crash. -/
def matched_users (issue : Issue) : List (String × Rule) → Option (List String)
  | [] => some []
  | (login, rule) :: rest =>
    match match_rule issue rule with
    | none => none
    | some true => (matched_users issue rest).map (fun us => login :: us)
    | some false => matched_users issue rest

/-- The fallback block of `process_issue` (`ghia/github.py` lines 227-241):
runs only when the assignee set is empty; `rules.fallback = none` is the
`KeyError` branch (no-op); an already-present label (exact membership) emits
the "already has label" message without mutation; otherwise the label is
appended and `update_labels` set. -/
def fallback_step (rules : RuleSet) (issue : Issue) (echoes : List Echo) :
    Issue × List Echo :=
  if issue.assignees.length = 0 then
    match rules.fallback with
    | some label =>
      if label ∈ issue.labels then (issue, echoes ++ [Echo.fallback_has label])
      else ({ issue with update_labels := true, labels := issue.labels ++ [label] },
            echoes ++ [Echo.fallback_added label])
    | none => (issue, echoes)
  else (issue, echoes)

/-- Model of `process_issue` (`ghia/github.py`): match the non-fallback rules, apply
the strategy, then the fallback block. `none` models the `TypeError` crash
escaping from `match_rule` on a `null` body. -/
def process_issue (issue : Issue) (strategy : String) (rules : RuleSet) :
    Option (Issue × List Echo) :=
  match matched_users issue rules.patterns with
  | none => none
  | some users =>
    let r := apply_strategy strategy issue users
    some (fallback_step rules r.1 r.2)

/-- Two lists regarded as Python sets hold the same elements. -/
def sameSet (a b : List String) : Prop := ∀ x, x ∈ a ↔ x ∈ b

instance (a b : List String) : Decidable (sameSet a b) :=
  decidable_of_iff ((∀ x ∈ a, x ∈ b) ∧ (∀ x ∈ b, x ∈ a))
    (by
      constructor
      · intro h x
        exact ⟨fun hx => h.1 x hx, fun hx => h.2 x hx⟩
      · intro h
        exact ⟨fun x hx => (h x).mp hx, fun x hx => (h x).mpr hx⟩)

/-- Builds an `Issue` the way `Issue.__init__` does: the assignee list is
turned into a set and both change flags start `False`. Used to build the
concrete instances appearing in witnesses and counterexamples. -/
def init_issue (number : Nat) (url html_url title : String) (body : Option String)
    (labels assignees : List String) : Issue :=
  { number := number
    url := url
    html_url := html_url
    title := title
    body := body
    labels := labels
    assignees := add_assignees [] assignees
    update_labels := false
    update_assignees := false }

/-- The symbol `apply_strategy` emits for one login, as a function of the
old and new assignee sets. -/
def echo_symbol (old_a new_a : List String) (user : String) : Char :=
  if user ∈ new_a then (if user ∈ old_a then '=' else '+') else '-'

/-- Whether the message loop sets `update_assignees` at one login: exactly
when the symbol is not `'='`. -/
def symbol_changes (old_a new_a : List String) (user : String) : Bool :=
  if user ∈ new_a then (if user ∈ old_a then false else true) else true

/-- The login named by one terminal message. -/
def echo_login : Echo → String
  | .assignee _ login => login
  | .fallback_has label => label
  | .fallback_added label => label

/-- Concrete issue with one assignee `dev`, used against the `change`
strategy. -/
def issue_c1 : Issue := init_issue 1 "api/1" "web/1" "title" (some "") [] ["dev"]

/-- Concrete issue with one assignee `Codertocat`. -/
def issue_c2 : Issue :=
  init_issue 2 "api/2" "web/2" "title" (some "") ["bug"] ["Codertocat"]

/-- Concrete issue with one assignee `Codertocat`. -/
def issue_c3 : Issue :=
  init_issue 3 "api/3" "web/3" "title" (some "") ["bug"] ["Codertocat"]

/-- Concrete issue with one assignee `x`. -/
def issue_c10 : Issue := init_issue 10 "api/10" "web/10" "title" (some "") [] ["x"]

/-- Concrete issue with one assignee `Codertocat`, used for the changelog
claim. -/
def issue_c4 : Issue :=
  init_issue 4 "api/4" "web/4" "title" (some "") ["bug"] ["Codertocat"]

/-- Concrete unassigned issue with no labels. -/
def issue_c5 : Issue := init_issue 5 "api/5" "web/5" "title" (some "") [] []

/-- Rule set with no pattern rules and a configured fallback label. -/
def rules_c5 : RuleSet := { patterns := [], fallback := some "Need assignment" }

/-- Concrete issue whose body mentions `commit`. -/
def issue_c7 : Issue :=
  init_issue 7 "api/7" "web/7" "Spelling error" (some "please fix the commit")
    ["bug"] []

/-- Rule with a single `text` pattern `commit`. -/
def rule_c7 : Rule := { title := [], text := ["commit"], label := [], any := [] }

/-- GitHub payload whose `body` field is JSON `null`. -/
def payload_c8 : IssuePayload :=
  { number := 8
    url := "api/8"
    html_url := "web/8"
    title := "title"
    body := none
    labels := []
    assignees := [] }

/-- Rule with a single `text` pattern, forcing a body search. -/
def rule_c8 : Rule := { title := [], text := ["x"], label := [], any := [] }

/-- Rule whose `label` pattern matches the fallback label configured in
`rules_c6`. -/
def rule_c6 : Rule := { title := [], text := [], label := ["need"], any := [] }

/-- Rule set whose fallback label, once applied, is matched by the `label`
pattern of the rule for login `UserX`. -/
def rules_c6 : RuleSet :=
  { patterns := [("UserX", rule_c6)], fallback := some "Need assignment" }

/-- Concrete unassigned, unlabelled issue used for the round-trip
counterexample. -/
def issue_c6 : Issue := init_issue 60 "api/60" "web/60" "title" (some "body") [] []

/-- Rule with a single `text` pattern `commit`, for the round-trip witness. -/
def rule_c6w : Rule := { title := [], text := ["commit"], label := [], any := [] }

/-- Rule set with one rule for `Assignee1` and no fallback. -/
def rules_c6w : RuleSet := { patterns := [("Assignee1", rule_c6w)], fallback := none }

/-- Concrete issue whose body mentions `commit`, with one assignee `dev`. -/
def issue_c6w : Issue :=
  init_issue 61 "api/61" "web/61" "title" (some "one commit") [] ["dev"]

/-- The issue state `process_issue issue_c6w "append" rules_c6w` produces. -/
def i1_c6 : Issue :=
  { number := 61
    url := "api/61"
    html_url := "web/61"
    title := "title"
    body := some "one commit"
    labels := []
    assignees := ["dev", "Assignee1"]
    update_labels := false
    update_assignees := true }

/-- The messages `process_issue issue_c6w "append" rules_c6w` produces. -/
def e1_c6 : List Echo :=
  [Echo.assignee '+' "Assignee1", Echo.assignee '=' "dev"]

theorem mem_add_assignees (x : String) (users : List String) :
    ∀ assignees : List String,
      x ∈ add_assignees assignees users ↔ x ∈ assignees ∨ x ∈ users := by
  induction users with
  | nil => intro assignees; simp [add_assignees]
  | cons u rest ih =>
    intro assignees
    by_cases h : u ∈ assignees
    · simp only [add_assignees, if_pos h, ih]
      constructor
      · rintro (hx | hx)
        · exact Or.inl hx
        · exact Or.inr (List.mem_cons_of_mem u hx)
      · rintro (hx | hx)
        · exact Or.inl hx
        · rcases List.mem_cons.mp hx with rfl | hx
          · exact Or.inl h
          · exact Or.inr hx
    · simp only [add_assignees, if_neg h, ih, List.mem_append,
        List.mem_singleton, List.mem_cons]
      tauto

theorem nodup_add_assignees (users : List String) :
    ∀ assignees : List String, assignees.Nodup →
      (add_assignees assignees users).Nodup := by
  induction users with
  | nil => intro assignees h; simpa [add_assignees] using h
  | cons u rest ih =>
    intro assignees h
    by_cases hu : u ∈ assignees
    · simpa [add_assignees, if_pos hu] using ih assignees h
    · simp only [add_assignees, if_neg hu]
      exact ih (assignees ++ [u]) (by simp [List.nodup_append, h, hu])

theorem add_assignees_eq_self (users : List String) :
    ∀ assignees : List String, (∀ u ∈ users, u ∈ assignees) →
      add_assignees assignees users = assignees := by
  induction users with
  | nil => intro assignees _; rfl
  | cons u rest ih =>
    intro assignees h
    have hu : u ∈ assignees := h u (List.mem_cons_self u rest)
    simp only [add_assignees, if_pos hu]
    exact ih assignees fun v hv => h v (List.mem_cons_of_mem u hv)

theorem echo_loop_fst (old_a new_a : List String) (users : List String) :
    ∀ issue : Issue,
      (echo_loop old_a new_a issue users).1 =
        { issue with update_assignees :=
            issue.update_assignees || users.any (symbol_changes old_a new_a) } := by
  induction users with
  | nil => intro issue; simp [echo_loop]
  | cons u rest ih =>
    intro issue
    by_cases hn : u ∈ new_a
    · by_cases ho : u ∈ old_a
      · simp [echo_loop, hn, ho, ih, symbol_changes]
      · simp [echo_loop, hn, ho, ih, symbol_changes]
    · simp [echo_loop, hn, ih, symbol_changes]

theorem echo_loop_snd (old_a new_a : List String) (users : List String) :
    ∀ issue : Issue,
      (echo_loop old_a new_a issue users).2 =
        users.map (fun u => Echo.assignee (echo_symbol old_a new_a u) u) := by
  induction users with
  | nil => intro issue; simp [echo_loop]
  | cons u rest ih =>
    intro issue
    by_cases hn : u ∈ new_a
    · by_cases ho : u ∈ old_a
      · simp [echo_loop, hn, ho, ih, echo_symbol]
      · simp [echo_loop, hn, ho, ih, echo_symbol]
    · simp [echo_loop, hn, ih, echo_symbol]

theorem echo_loop_eq (old_a new_a : List String) (users : List String)
    (issue : Issue) :
    echo_loop old_a new_a issue users =
      ({ issue with update_assignees :=
          issue.update_assignees || users.any (symbol_changes old_a new_a) },
       users.map (fun u => Echo.assignee (echo_symbol old_a new_a u) u)) := by
  rw [Prod.ext_iff]
  exact ⟨echo_loop_fst old_a new_a users issue, echo_loop_snd old_a new_a users issue⟩

/-- The assignee set `apply_strategy` leaves on the issue, per strategy
branch. -/
def strategy_assignees (strategy : String) (issue : Issue) (users : List String) :
    List String :=
  if strategy = "append" then add_assignees issue.assignees users
  else if strategy = "set" then
    if issue.assignees.length = 0 then add_assignees issue.assignees users
    else issue.assignees
  else add_assignees [] users

/-- The `update_assignees` value right after the strategy branch (before the
message loop): unchanged for `append`/`set`, forced `true` otherwise. -/
def strategy_flag (strategy : String) (issue : Issue) : Bool :=
  if strategy = "append" then issue.update_assignees
  else if strategy = "set" then issue.update_assignees
  else true

theorem apply_strategy_eq (strategy : String) (issue : Issue) (users : List String) :
    apply_strategy strategy issue users =
      ({ issue with
          assignees := strategy_assignees strategy issue users
          update_assignees := strategy_flag strategy issue ||
            (List.insertionSort cfle
              (add_assignees issue.assignees
                (strategy_assignees strategy issue users))).any
              (symbol_changes issue.assignees
                (strategy_assignees strategy issue users)) },
       (List.insertionSort cfle
          (add_assignees issue.assignees
            (strategy_assignees strategy issue users))).map
          (fun u => Echo.assignee
            (echo_symbol issue.assignees
              (strategy_assignees strategy issue users) u) u)) := by
  by_cases ha : strategy = "append"
  · simp [apply_strategy, strategy_assignees, strategy_flag, ha, echo_loop_eq]
  · by_cases hs : strategy = "set"
    · by_cases hz : issue.assignees.length = 0
      · simp [apply_strategy, strategy_assignees, strategy_flag, ha, hs, hz,
          echo_loop_eq]
      · simp [apply_strategy, strategy_assignees, strategy_flag, ha, hs, hz,
          echo_loop_eq]
    · simp [apply_strategy, strategy_assignees, strategy_flag, ha, hs,
        echo_loop_eq]

/-- C1 (counterexample): the claim "for `change`, `update_assignees` ends up
true iff the resulting assignee set differs from the original" is false on
the code: with prior assignee set `{dev}` and matched logins `[dev]` the
resulting set equals the original, yet `update_assignees` ends `true`
(the `else` branch of `apply_strategy` sets it unconditionally). -/
theorem C1_counterexample :
    (apply_strategy "change" issue_c1 ["dev"]).1.assignees = issue_c1.assignees ∧
    issue_c1.update_assignees = false ∧
    (apply_strategy "change" issue_c1 ["dev"]).1.update_assignees = true := by
  decide

/-- C1 (amended): for the `change` strategy `apply_strategy` replaces
`issue.assignees` with exactly the matched logins (for every prior assignee
set, an empty matched list clears all assignees), and `update_assignees`
ends up `true` unconditionally — in particular whenever the resulting set
differs from the original, but also when the two coincide. -/
theorem C1_amended_thm (issue : Issue) (users : List String) :
    sameSet (apply_strategy "change" issue users).1.assignees users ∧
    (apply_strategy "change" issue users).1.update_assignees = true := by
  rw [apply_strategy_eq]
  constructor
  · intro x
    simp [strategy_assignees, mem_add_assignees]
  · simp [strategy_flag]

/-- C2: for the `set` strategy, an issue with at least one existing assignee
keeps exactly its original assignee set and `update_assignees` stays
`false`, whatever the matched logins are; an issue with zero assignees gets
exactly the matched logins assigned, and `update_assignees` becomes `true`
iff the matched login list is non-empty. -/
theorem C2_thm (issue : Issue) (users : List String)
    (h : issue.update_assignees = false) :
    (issue.assignees ≠ [] →
      (apply_strategy "set" issue users).1.assignees = issue.assignees ∧
      (apply_strategy "set" issue users).1.update_assignees = false) ∧
    (issue.assignees = [] →
      sameSet (apply_strategy "set" issue users).1.assignees users ∧
      ((apply_strategy "set" issue users).1.update_assignees = true ↔
        users ≠ [])) := by
  rw [apply_strategy_eq]
  constructor
  · intro hne
    have hlen : issue.assignees.length ≠ 0 := by
      simpa [List.length_eq_zero] using hne
    constructor
    · simp [strategy_assignees, hlen]
    · simp only [strategy_flag, strategy_assignees, if_neg hlen, h,
        Bool.false_or, String.reduceEq, if_false, if_true, Bool.or_eq_true]
      rw [List.any_eq_false]
      intro x hx
      have hxo : x ∈ issue.assignees := by
        rw [List.mem_insertionSort, mem_add_assignees] at hx
        tauto
      simp [symbol_changes, hxo]
  · intro he
    have hlen : issue.assignees.length = 0 := by simp [he]
    constructor
    · intro x
      simp [strategy_assignees, hlen, he, mem_add_assignees]
    · simp only [strategy_flag, strategy_assignees, if_pos hlen, h,
        Bool.false_or, String.reduceEq, if_false, if_true]
      rw [he, List.any_eq_true]
      constructor
      · rintro ⟨x, hx, -⟩
        intro hnil
        subst hnil
        simp [add_assignees, List.insertionSort] at hx
      · intro hne
        rcases users with - | ⟨u, rest⟩
        · exact absurd rfl hne
        · refine ⟨u, ?_, ?_⟩
          · rw [List.mem_insertionSort, mem_add_assignees, mem_add_assignees]
            simp
          · simp [symbol_changes]

/-- C2 witness: the theorem applied to a concrete issue with one assignee
and a concrete matched-login list. -/
theorem C2_witness :
    (issue_c2.assignees ≠ [] →
      (apply_strategy "set" issue_c2 ["Assignee1"]).1.assignees = issue_c2.assignees ∧
      (apply_strategy "set" issue_c2 ["Assignee1"]).1.update_assignees = false) ∧
    (issue_c2.assignees = [] →
      sameSet (apply_strategy "set" issue_c2 ["Assignee1"]).1.assignees ["Assignee1"] ∧
      ((apply_strategy "set" issue_c2 ["Assignee1"]).1.update_assignees = true ↔
        ["Assignee1"] ≠ ([] : List String))) :=
  C2_thm issue_c2 ["Assignee1"] rfl

/-- C3: for the `append` strategy the new assignee set contains every old
assignee (nobody is ever removed), and `update_assignees` ends up `true` iff
the matched logins are not all already among the old assignees. -/
theorem C3_thm (issue : Issue) (users : List String)
    (h : issue.update_assignees = false) :
    (∀ x ∈ issue.assignees, x ∈ (apply_strategy "append" issue users).1.assignees) ∧
    ((apply_strategy "append" issue users).1.update_assignees = true ↔
      ¬ ∀ u ∈ users, u ∈ issue.assignees) := by
  rw [apply_strategy_eq]
  constructor
  · intro x hx
    simp [strategy_assignees, mem_add_assignees, hx]
  · simp only [strategy_flag, strategy_assignees, h, Bool.false_or,
      String.reduceEq, if_false, if_true]
    rw [List.any_eq_true]
    constructor
    · rintro ⟨x, hx, hchange⟩
      rw [List.mem_insertionSort, mem_add_assignees, mem_add_assignees] at hx
      intro hall
      have hxn : x ∈ add_assignees issue.assignees users := by
        rw [mem_add_assignees]; tauto
      have hxo : x ∈ issue.assignees := by
        rw [mem_add_assignees] at hxn
        rcases hxn with hxo | hxu
        · exact hxo
        · exact hall x hxu
      simp [symbol_changes, hxo, hxn] at hchange
    · intro hnot
      push_neg at hnot
      obtain ⟨u, hu, huo⟩ := hnot
      refine ⟨u, ?_, ?_⟩
      · rw [List.mem_insertionSort, mem_add_assignees, mem_add_assignees]
        tauto
      · have hun : u ∈ add_assignees issue.assignees users := by
          rw [mem_add_assignees]; tauto
        simp [symbol_changes, hun, huo]

/-- C3 witness: the theorem applied to a concrete issue with one assignee
and a matched login not yet assigned. -/
theorem C3_witness :
    (∀ x ∈ issue_c3.assignees,
      x ∈ (apply_strategy "append" issue_c3 ["Assignee1"]).1.assignees) ∧
    ((apply_strategy "append" issue_c3 ["Assignee1"]).1.update_assignees = true ↔
      ¬ ∀ u ∈ ["Assignee1"], u ∈ issue_c3.assignees) :=
  C3_thm issue_c3 ["Assignee1"] rfl

theorem any_loop_some (title b : String) (labels : List String) :
    ∀ ps : List String,
      any_loop title (some b) labels ps =
        some (ps.any fun p =>
          search p title || (search p b ||
            labels.any fun l => search p l)) := by
  intro ps
  induction ps with
  | nil => simp [any_loop]
  | cons p rest ih =>
    by_cases h1 : search p title
    · simp [any_loop, h1]
    · by_cases h2 : search p b
      · simp [any_loop, h1, h2]
      · by_cases h3 : labels.any fun l => search p l
        · simp [any_loop, h1, h2, h3]
        · simp [any_loop, h1, h2, h3, ih]

theorem match_rule_some (issue : Issue) (rule : Rule) (b : String)
    (hb : issue.body = some b) :
    match_rule issue rule =
      some ((rule.title.any fun p => search p issue.title) ||
        ((rule.text.any fun p => search p b) ||
          ((rule.label.any fun p => issue.labels.any fun l => search p l) ||
            rule.any.any fun p =>
              search p issue.title || (search p b ||
                issue.labels.any fun l => search p l)))) := by
  by_cases h1 : rule.title.any fun p => search p issue.title
  · simp [match_rule, h1]
  · rcases ht : rule.text with - | ⟨q, qs⟩
    · by_cases h3 : rule.label.any fun p => issue.labels.any fun l => search p l
      · simp [match_rule, hb, h1, ht, h3]
      · simp [match_rule, hb, h1, ht, h3, any_loop_some]
    · by_cases h2 : (q :: qs).any fun p => search p b
      · simp [match_rule, hb, h1, ht, h2]
      · by_cases h3 : rule.label.any fun p => issue.labels.any fun l => search p l
        · simp [match_rule, hb, h1, ht, h2, h3]
        · simp [match_rule, hb, h1, ht, h2, h3, any_loop_some]

theorem match_rule_congr (i j : Issue) (rule : Rule)
    (ht : i.title = j.title) (hb : i.body = j.body) (hl : i.labels = j.labels) :
    match_rule i rule = match_rule j rule := by
  simp only [match_rule, ht, hb, hl]

theorem matched_users_congr (i j : Issue)
    (ht : i.title = j.title) (hb : i.body = j.body) (hl : i.labels = j.labels) :
    ∀ patterns : List (String × Rule),
      matched_users i patterns = matched_users j patterns := by
  intro patterns
  induction patterns with
  | nil => rfl
  | cons pr rest ih =>
    obtain ⟨login, rule⟩ := pr
    simp only [matched_users, match_rule_congr i j rule ht hb hl, ih]

theorem fallback_step_fst (rules : RuleSet) (issue : Issue) (echoes : List Echo) :
    (fallback_step rules issue echoes).1.assignees = issue.assignees ∧
    (fallback_step rules issue echoes).1.update_assignees = issue.update_assignees ∧
    (fallback_step rules issue echoes).1.title = issue.title ∧
    (fallback_step rules issue echoes).1.body = issue.body := by
  by_cases hlen : issue.assignees.length = 0
  · rcases hf : rules.fallback with - | label
    · simp [fallback_step, hlen, hf]
    · by_cases hl : label ∈ issue.labels <;> simp [fallback_step, hlen, hf, hl]
  · simp [fallback_step, hlen]

/-- C4: for every strategy, the changelog of `apply_strategy` names exactly
the logins of old ∪ new assignees, once each (permutation of the
duplicate-free union), ordered ascending by case-insensitive login, and each
entry carries the symbol `'+'` / `'-'` / `'='` determined by membership of
its login in the new and old assignee sets. -/
theorem C4_thm (strategy : String) (issue : Issue) (users : List String)
    (hnd : issue.assignees.Nodup) :
    ((apply_strategy strategy issue users).2.map echo_login).Perm
      (add_assignees issue.assignees
        (apply_strategy strategy issue users).1.assignees) ∧
    (add_assignees issue.assignees
      (apply_strategy strategy issue users).1.assignees).Nodup ∧
    List.Sorted cfle ((apply_strategy strategy issue users).2.map echo_login) ∧
    ∀ e ∈ (apply_strategy strategy issue users).2,
      e = Echo.assignee
        (echo_symbol issue.assignees
          (apply_strategy strategy issue users).1.assignees (echo_login e))
        (echo_login e) := by
  rw [apply_strategy_eq]
  refine ⟨?_, ?_, ?_, ?_⟩
  · rw [List.map_map]
    have hmap : (echo_login ∘ fun u =>
        Echo.assignee
          (echo_symbol issue.assignees
            (strategy_assignees strategy issue users) u) u) = id := by
      funext u
      rfl
    rw [hmap, List.map_id]
    exact List.perm_insertionSort cfle _
  · exact nodup_add_assignees _ _ hnd
  · rw [List.map_map]
    have hmap : (echo_login ∘ fun u =>
        Echo.assignee
          (echo_symbol issue.assignees
            (strategy_assignees strategy issue users) u) u) = id := by
      funext u
      rfl
    rw [hmap, List.map_id]
    exact List.sorted_insertionSort cfle _
  · intro e he
    rw [List.mem_map] at he
    obtain ⟨u, -, rfl⟩ := he
    rfl

/-- C4 witness: the theorem applied to a concrete issue (duplicate-free
assignee set) under the `append` strategy. -/
theorem C4_witness :
    ((apply_strategy "append" issue_c4 ["Assignee1"]).2.map echo_login).Perm
      (add_assignees issue_c4.assignees
        (apply_strategy "append" issue_c4 ["Assignee1"]).1.assignees) ∧
    (add_assignees issue_c4.assignees
      (apply_strategy "append" issue_c4 ["Assignee1"]).1.assignees).Nodup ∧
    List.Sorted cfle
      ((apply_strategy "append" issue_c4 ["Assignee1"]).2.map echo_login) ∧
    ∀ e ∈ (apply_strategy "append" issue_c4 ["Assignee1"]).2,
      e = Echo.assignee
        (echo_symbol issue_c4.assignees
          (apply_strategy "append" issue_c4 ["Assignee1"]).1.assignees
          (echo_login e))
        (echo_login e) :=
  C4_thm "append" issue_c4 ["Assignee1"] (by decide)

/-- C5: the fallback block of `process_issue` acts iff, after strategy
resolution, the assignee set is empty and a fallback label is configured:
when the label is already present (exact membership) nothing is mutated and
`update_labels` stays false; when absent, the label is appended and
`update_labels` set; with no fallback configured or non-empty assignees,
issue and messages pass through untouched. -/
theorem C5_thm (rules : RuleSet) (issue : Issue) (echoes : List Echo)
    (h : issue.update_labels = false) :
    (∀ label, rules.fallback = some label → issue.assignees = [] →
      label ∈ issue.labels →
        fallback_step rules issue echoes =
          (issue, echoes ++ [Echo.fallback_has label]) ∧
        (fallback_step rules issue echoes).1.update_labels = false) ∧
    (∀ label, rules.fallback = some label → issue.assignees = [] →
      label ∉ issue.labels →
        (fallback_step rules issue echoes).1.labels = issue.labels ++ [label] ∧
        (fallback_step rules issue echoes).1.update_labels = true ∧
        (fallback_step rules issue echoes).2 =
          echoes ++ [Echo.fallback_added label]) ∧
    ((rules.fallback = none ∨ issue.assignees ≠ []) →
      fallback_step rules issue echoes = (issue, echoes)) := by
  refine ⟨?_, ?_, ?_⟩
  · intro label hf he hl
    have hlen : issue.assignees.length = 0 := by simp [he]
    refine ⟨by simp [fallback_step, hlen, hf, hl], ?_⟩
    simp [fallback_step, hlen, hf, hl, h]
  · intro label hf he hl
    have hlen : issue.assignees.length = 0 := by simp [he]
    refine ⟨?_, ?_, ?_⟩ <;> simp [fallback_step, hlen, hf, hl]
  · rintro (hf | hne)
    · by_cases hlen : issue.assignees.length = 0 <;>
        simp [fallback_step, hlen, hf]
    · have hlen : issue.assignees.length ≠ 0 := by
        simpa [List.length_eq_zero] using hne
      simp [fallback_step, hlen]

/-- C5 witness: the theorem applied to a concrete unassigned issue and a
rule set with a configured fallback label. -/
theorem C5_witness :
    (∀ label, rules_c5.fallback = some label → issue_c5.assignees = [] →
      label ∈ issue_c5.labels →
        fallback_step rules_c5 issue_c5 [] =
          (issue_c5, [] ++ [Echo.fallback_has label]) ∧
        (fallback_step rules_c5 issue_c5 []).1.update_labels = false) ∧
    (∀ label, rules_c5.fallback = some label → issue_c5.assignees = [] →
      label ∉ issue_c5.labels →
        (fallback_step rules_c5 issue_c5 []).1.labels =
          issue_c5.labels ++ [label] ∧
        (fallback_step rules_c5 issue_c5 []).1.update_labels = true ∧
        (fallback_step rules_c5 issue_c5 []).2 =
          [] ++ [Echo.fallback_added label]) ∧
    ((rules_c5.fallback = none ∨ issue_c5.assignees ≠ []) →
      fallback_step rules_c5 issue_c5 [] = (issue_c5, [])) :=
  C5_thm rules_c5 issue_c5 [] rfl

/-- C7: with a present body, `match_rule` returns `some true` iff some
pattern of one of the four lists matches its scope as a case-insensitive
substring search (title patterns against the title, text against the body,
label against some label, any against title, body or some label); a rule
with all four lists empty never matches. -/
theorem C7_thm (issue : Issue) (rule : Rule) (b : String)
    (hb : issue.body = some b) :
    (match_rule issue rule = some true ↔
      (∃ p ∈ rule.title, search p issue.title = true) ∨
      (∃ p ∈ rule.text, search p b = true) ∨
      (∃ p ∈ rule.label, ∃ l ∈ issue.labels, search p l = true) ∨
      (∃ p ∈ rule.any, search p issue.title = true ∨ search p b = true ∨
        ∃ l ∈ issue.labels, search p l = true)) ∧
    (rule.title = [] → rule.text = [] → rule.label = [] → rule.any = [] →
      match_rule issue rule = some false) := by
  constructor
  · rw [match_rule_some issue rule b hb]
    simp only [Option.some.injEq, Bool.or_eq_true, List.any_eq_true]
  · intro h1 h2 h3 h4
    rw [match_rule_some issue rule b hb, h1, h2, h3, h4]
    simp

/-- C7 witness: the theorem applied to a concrete issue and a rule whose
`text` pattern matches the body. -/
theorem C7_witness :
    (match_rule issue_c7 rule_c7 = some true ↔
      (∃ p ∈ rule_c7.title, search p issue_c7.title = true) ∨
      (∃ p ∈ rule_c7.text, search p "please fix the commit" = true) ∨
      (∃ p ∈ rule_c7.label, ∃ l ∈ issue_c7.labels, search p l = true) ∨
      (∃ p ∈ rule_c7.any, search p issue_c7.title = true ∨
        search p "please fix the commit" = true ∨
        ∃ l ∈ issue_c7.labels, search p l = true)) ∧
    (rule_c7.title = [] → rule_c7.text = [] → rule_c7.label = [] →
      rule_c7.any = [] → match_rule issue_c7 rule_c7 = some false) :=
  C7_thm issue_c7 rule_c7 "please fix the commit" rfl

/-- C8: the claim says a `null` body is treated as the empty string and
matching succeeds; the code instead stores `None` and `regex.search(None)`
raises `TypeError` (modelled as the `none` outcome) as soon as a body search
is reached, while the claimed behaviour (body replaced by `""`) would return
an ordinary boolean. -/
theorem C8_thm :
    match_rule (create_issue payload_c8) rule_c8 = none ∧
    match_rule { create_issue payload_c8 with body := some "" } rule_c8 =
      some false := by
  decide

/-- C9: the serialized patch carries the `labels` field iff `update_labels`
is set and the `assignees` field iff `update_assignees` is set, and
`update_github` performs no update request exactly when both flags are
clear. -/
theorem C9_thm (issue : Issue) :
    (serialize issue).labels.isSome = issue.update_labels ∧
    (serialize issue).assignees.isSome = issue.update_assignees ∧
    (update_github issue = none ↔
      issue.update_labels = false ∧ issue.update_assignees = false) := by
  cases hl : issue.update_labels <;> cases ha : issue.update_assignees <;>
    simp [serialize, update_github, hl, ha]

/-- C6 (counterexample): re-running `process_issue` with `append` is not
convergent in general: the first run on `issue_c6` adds the fallback label
`Need assignment`, the `label` pattern of the rule for `UserX` then matches
that label on the second run, so the second run assigns `UserX` and ends
with `update_assignees = true` — the claim requires `false`. -/
theorem C6_counterexample :
    (process_issue issue_c6 "append" rules_c6).map (fun r =>
      (process_issue
        { r.1 with update_labels := false, update_assignees := false }
        "append" rules_c6).map (fun r2 => r2.1.update_assignees)) =
      some (some true) := by
  decide

/-- C6 (amended): running `process_issue` a second time with `append` on the
(flag-reset) issue state produced by a first run with the same rule set
yields an unchanged assignee set and `update_assignees = false`, provided
the first run left the labels unchanged (did not add the fallback label);
the counterexample shows the label-mutating case can re-trigger matching. -/
theorem C6_amended_thm (issue : Issue) (rules : RuleSet) (i1 : Issue)
    (e1 : List Echo)
    (h1 : process_issue issue "append" rules = some (i1, e1))
    (hlab : i1.labels = issue.labels) :
    (process_issue { i1 with update_labels := false, update_assignees := false }
        "append" rules).map (fun r => (r.1.update_assignees, r.1.assignees)) =
      some (false, i1.assignees) := by
  rcases hm : matched_users issue rules.patterns with - | users
  · rw [process_issue, hm] at h1
    exact absurd h1 (by simp)
  · rw [process_issue, hm] at h1
    simp only [Option.some.injEq] at h1
    have hassign : (apply_strategy "append" issue users).1.assignees =
        add_assignees issue.assignees users := by
      rw [apply_strategy_eq]
      simp [strategy_assignees]
    have htitle : (apply_strategy "append" issue users).1.title = issue.title := by
      rw [apply_strategy_eq]
    have hbody : (apply_strategy "append" issue users).1.body = issue.body := by
      rw [apply_strategy_eq]
    obtain ⟨hfa, hfu, hft, hfb⟩ := fallback_step_fst rules
      (apply_strategy "append" issue users).1 (apply_strategy "append" issue users).2
    have hpair : (fallback_step rules (apply_strategy "append" issue users).1
        (apply_strategy "append" issue users).2).1 = i1 := by
      rw [h1]
    have hi1a : i1.assignees = add_assignees issue.assignees users := by
      rw [← hpair, hfa, hassign]
    have hi1t : i1.title = issue.title := by rw [← hpair, hft, htitle]
    have hi1b : i1.body = issue.body := by rw [← hpair, hfb, hbody]
    set j : Issue :=
      { i1 with update_labels := false, update_assignees := false } with hj
    have hja : j.assignees = i1.assignees := by rw [hj]
    have hmj : matched_users j rules.patterns = some users := by
      rw [matched_users_congr j issue (by rw [hj]; simpa using hi1t)
        (by rw [hj]; simpa using hi1b) (by rw [hj]; simpa using hlab), hm]
    have husers : ∀ u ∈ users, u ∈ i1.assignees := by
      intro u hu
      rw [hi1a, mem_add_assignees]
      exact Or.inr hu
    have hsa : strategy_assignees "append" j users = i1.assignees := by
      simp only [strategy_assignees, String.reduceEq, if_true]
      rw [hja]
      exact add_assignees_eq_self users i1.assignees husers
    have hb1 : (apply_strategy "append" j users).1.assignees = i1.assignees := by
      rw [apply_strategy_eq]
      exact hsa
    have hb2 : (apply_strategy "append" j users).1.update_assignees = false := by
      rw [apply_strategy_eq]
      show (strategy_flag "append" j ||
        (List.insertionSort cfle
          (add_assignees j.assignees (strategy_assignees "append" j users))).any
          (symbol_changes j.assignees (strategy_assignees "append" j users))) =
        false
      have hflag : strategy_flag "append" j = false := by
        rw [hj]
        simp [strategy_flag]
      rw [hsa, hja, hflag, Bool.false_or, List.any_eq_false]
      intro x hx
      rw [List.mem_insertionSort, mem_add_assignees] at hx
      have hxo : x ∈ i1.assignees := by
        rcases hx with hx | hx
        · exact hx
        · exact hx
      simp [symbol_changes, hxo]
    rw [process_issue, hmj]
    obtain ⟨hfa2, hfu2, -, -⟩ := fallback_step_fst rules
      (apply_strategy "append" j users).1 (apply_strategy "append" j users).2
    show some ((fallback_step rules (apply_strategy "append" j users).1
          (apply_strategy "append" j users).2).1.update_assignees,
        (fallback_step rules (apply_strategy "append" j users).1
          (apply_strategy "append" j users).2).1.assignees) =
      some (false, i1.assignees)
    rw [hfu2, hb2, hfa2, hb1]

/-- C6 witness: the amended theorem applied to a concrete first run that
leaves the labels unchanged (no fallback configured). -/
theorem C6_witness :
    (process_issue { i1_c6 with update_labels := false, update_assignees := false }
        "append" rules_c6w).map (fun r => (r.1.update_assignees, r.1.assignees)) =
      some (false, i1_c6.assignees) :=
  C6_amended_thm issue_c6w rules_c6w i1_c6 e1_c6 (by decide) rfl

/-- C10: every strategy string other than `"append"` and `"set"` takes the
full-replace branch of `apply_strategy`: `update_assignees` is set `true`
unconditionally and the assignee set becomes exactly the matched logins;
the strategy argument is not validated. -/
theorem C10_thm (strategy : String) (issue : Issue) (users : List String)
    (h1 : strategy ≠ "append") (h2 : strategy ≠ "set") :
    (apply_strategy strategy issue users).1.update_assignees = true ∧
    sameSet (apply_strategy strategy issue users).1.assignees users := by
  rw [apply_strategy_eq]
  refine ⟨by simp [strategy_flag, h1, h2], ?_⟩
  intro x
  simp [strategy_assignees, h1, h2, mem_add_assignees]

/-- C10 witness: the theorem applied to the unknown strategy string
`"bogus"`. -/
theorem C10_witness :
    (apply_strategy "bogus" issue_c10 ["a"]).1.update_assignees = true ∧
    sameSet (apply_strategy "bogus" issue_c10 ["a"]).1.assignees ["a"] :=
  C10_thm "bogus" issue_c10 ["a"] (by decide) (by decide)

end Ghia

section Sanity

open Ghia

example : search "Commit" "two commits" = true := by decide

example : search "commit" "" = false := by decide

example : List.insertionSort cfle ["b", "A"] = ["A", "b"] := by decide

example : add_assignees ["a"] ["b", "a"] = ["a", "b"] := by decide

end Sanity
